import Mathlib

/-!
Verification of the webhook ingestion service (`app.py`): a shallow
embedding of its signature verification, timestamp formatting, event
classification/formatting, storage and retrieval, with the claimed
properties settled as theorems.
-/

/-- The kinds of Python exception the embedded code can raise. -/
inductive PyError where
  | keyError
  | typeError
  | valueError
  | attributeError
deriving DecidableEq

/-- Parsed JSON values, as produced by `request.get_json()`. -/
inductive Json where
  | null
  | bool (b : Bool)
  | num (n : Int)
  | str (s : String)
  | arr (elems : List Json)
  | obj (fields : List (String × Json))

/-- Python subscripting `value[key]` with a string key: KeyError when the
key is missing from a dict, TypeError when the value is not a dict. -/
def Json.getItem : Json → String → Except PyError Json
  | .obj kvs, k =>
    match kvs.lookup k with
    | some v => .ok v
    | none => .error .keyError
  | _, _ => .error .typeError

/-- Python `value.get(key)` on a dict: `none` models Python `None` for a
missing key; AttributeError when the value is not a dict. -/
def Json.dictGet : Json → String → Except PyError (Option Json)
  | .obj kvs, k => .ok (kvs.lookup k)
  | _, _ => .error .attributeError

/-- Python truthiness of a JSON value. -/
def Json.truthy : Json → Bool
  | .null => false
  | .bool b => b
  | .num n => n != 0
  | .str s => s.length != 0
  | .arr xs => !xs.isEmpty
  | .obj kvs => !kvs.isEmpty

/-- Python truthiness of `dict.get`'s result (`None` is falsy). -/
def truthyOpt : Option Json → Bool
  | none => false
  | some j => j.truthy

/-- The value must be a Python `str`: `.split` on anything else raises
AttributeError. -/
def Json.asStrA : Json → Except PyError String
  | .str s => .ok s
  | _ => .error .attributeError

/-- The value must be a Python `str`: `datetime.strptime` on anything else
raises TypeError. -/
def Json.asStrT : Json → Except PyError String
  | .str s => .ok s
  | _ => .error .typeError

/-- Comma-and-space joining, as in Python container reprs. -/
def commaJoin : List String → String
  | [] => ""
  | [s] => s
  | s :: rest => s ++ ", " ++ commaJoin rest

/-- A single-quote character as a string. -/
def pyQuote : String := String.singleton (Char.ofNat 39)

mutual

/-- Python `repr` of a JSON value (string escaping inside containers is
not modelled; no claim renders a container value). -/
def pyRepr : Json → String
  | .null => "None"
  | .bool true => "True"
  | .bool false => "False"
  | .num n => toString n
  | .str s => pyQuote ++ s ++ pyQuote
  | .arr xs => "[" ++ pyReprList xs ++ "]"
  | .obj kvs => "\x7b" ++ pyReprFields kvs ++ "\x7d"

/-- Python `repr` of a list's elements, comma separated. -/
def pyReprList : List Json → String
  | [] => ""
  | [x] => pyRepr x
  | x :: xs => pyRepr x ++ ", " ++ pyReprList xs

/-- Python `repr` of a dict's entries, comma separated. -/
def pyReprFields : List (String × Json) → String
  | [] => ""
  | [kv] => pyQuote ++ kv.1 ++ pyQuote ++ ": " ++ pyRepr kv.2
  | kv :: kvs => pyQuote ++ kv.1 ++ pyQuote ++ ": " ++ pyRepr kv.2 ++ ", " ++ pyReprFields kvs

end

/-- Python `str()` as applied by f-string interpolation. -/
def pyStr : Json → String
  | .str s => s
  | j => pyRepr j

/-- Python `str.split(sep)` for a one-character separator, over the
string's characters: `"a=b".split("=") = ["a", "b"]`, `"".split("=") = [""]`. -/
def pySplitCh (sep : Char) : List Char → List (List Char)
  | [] => [[]]
  | c :: rest =>
    if c = sep then [] :: pySplitCh sep rest
    else
      match pySplitCh sep rest with
      | r :: rs => (c :: r) :: rs
      | [] => [[c]]

/-- The equals-sign character, the separator of the signature header. -/
def eqCh : Char := Char.ofNat 61

/-- `verify_signature` from `app.py`. `hm` stands for the library call
`hmac.new(secret, msg=payload, digestmod=sha1).hexdigest()` (an arbitrary
digest function: every theorem below holds for the real one);
`hmac.compare_digest` is a timing-safe string equality. The 2-tuple
unpacking `sha_name, signature = signature_header.split("=")` raises
ValueError unless the split yields exactly two parts. -/
def verify_signature (hm : String → String → String) (SECRET_TOKEN : Option String)
    (payload : String) (signature_header : Option String) : Except PyError Bool :=
  match SECRET_TOKEN, signature_header with
  | none, _ => .ok true
  | some _, none => .ok true
  | some sec, some header =>
    if sec.length = 0 ∨ header.length = 0 then .ok true
    else
      match pySplitCh eqCh header.toList with
      | [sha_name, signature] =>
        if String.mk sha_name ≠ "sha1" then .ok false
        else .ok (decide (hm sec payload = String.mk signature))
      | _ => .error .valueError

deriving instance DecidableEq for Except

/-- The parsed components `datetime.strptime` delivers. -/
structure PyDateTime where
  year : Nat
  month : Nat
  day : Nat
  hour : Nat
  minute : Nat
  second : Nat
deriving DecidableEq

/-- The code points of the zero digit of every Unicode decimal-digit
block (category Nd), as CPython 3.11's Unicode tables define them: every
Nd character sits in one run of ten code points carrying digit values 0
to 9 in order. `re`'s `\d` over `str` patterns (no `re.ASCII`) matches
exactly these characters, and `int()` converts them by these values. -/
def digitZeros : List Nat :=
  [48, 1632, 1776, 1984, 2406, 2534, 2662, 2790, 2918, 3046, 3174, 3302,
   3430, 3558, 3664, 3792, 3872, 4160, 4240, 6112, 6160, 6470, 6608, 6784,
   6800, 6992, 7088, 7232, 7248, 42528, 43216, 43264, 43472, 43504, 43600,
   44016, 65296, 66720, 68912, 69734, 69872, 69942, 70096, 70384, 70736,
   70864, 71248, 71360, 71472, 71904, 72016, 72784, 73040, 73120, 92768,
   92864, 93008, 120782, 120792, 120802, 120812, 120822, 123200, 123632,
   125264, 130032]

/-- The zero code point of the decimal-digit block a code point lies in,
if any. -/
def digitBase? (n : Nat) : Option Nat :=
  digitZeros.find? (fun z => z ≤ n && n ≤ z + 9)

/-- Unicode decimal digit test: the regex class `\d` of `_strptime`'s
`str` patterns (category Nd, not only ASCII). -/
def isDig (c : Char) : Bool := (digitBase? c.toNat).isSome

/-- The decimal value of a digit character, as `int()` reads it. -/
def digVal (c : Char) : Nat := c.toNat - (digitBase? c.toNat).getD 48

/-- The maximal leading run of decimal digits and the rest. -/
def takeDigits : List Char → List Char × List Char
  | [] => ([], [])
  | c :: cs =>
    if isDig c then (c :: (takeDigits cs).1, (takeDigits cs).2)
    else ([], c :: cs)

/-- The number a run of decimal digits denotes, as `int()` computes it
(each character by its Unicode digit value). -/
def digitsVal (ds : List Char) : Nat :=
  ds.foldl (fun a c => a * 10 + digVal c) 0

/-- Membership of a character in an ASCII regex class range `[lo-hi]`. -/
def asciiBetween (lo hi c : Char) : Bool := lo.toNat ≤ c.toNat && c.toNat ≤ hi.toNat

/-- Whether a maximal digit run matches `%Y`'s pattern `\d\d\d\d`
exactly. Because the character after each field is a non-digit literal,
the surrounding regex succeeds only if the field's pattern consumes the
whole run, so each field is this exact-run test. -/
def okY (r : List Char) : Bool := r.length = 4

/-- Whether a digit run matches `%m`'s pattern `1[0-2]|0[1-9]|[1-9]`
exactly (ASCII classes only: no `\d`). -/
def okM (r : List Char) : Bool :=
  match r with
  | [c] => asciiBetween '1' '9' c
  | [c1, c2] => (c1 = '1' && asciiBetween '0' '2' c2) || (c1 = '0' && asciiBetween '1' '9' c2)
  | _ => false

/-- Whether a digit run matches the run alternatives of `%d`'s pattern
`3[0-1]|[1-2]\d|0[1-9]|[1-9]| [1-9]` exactly (the space alternative is
handled by `okDayTok`); the second character after an ASCII 1 or 2 may be
any Unicode digit. -/
def okD (r : List Char) : Bool :=
  match r with
  | [c] => asciiBetween '1' '9' c
  | [c1, c2] =>
      (c1 = '3' && asciiBetween '0' '1' c2) || ((c1 = '1' || c1 = '2') && isDig c2)
      || (c1 = '0' && asciiBetween '1' '9' c2)
  | _ => false

/-- Whether a digit run matches `%d`'s alternative ` [1-9]` with the
leading space already consumed. -/
def okDaySpace (r : List Char) : Bool :=
  match r with
  | [c] => asciiBetween '1' '9' c
  | _ => false

/-- Whether a day token — a digit run, or a space followed by one —
matches `%d`'s pattern `3[0-1]|[1-2]\d|0[1-9]|[1-9]| [1-9]` exactly. -/
def okDayTok : List Char → Bool
  | [] => okD []
  | c :: r => if c = ' ' then okDaySpace r else okD (c :: r)

/-- The day-of-month value a day token denotes. -/
def dayVal : List Char → Nat
  | [] => digitsVal []
  | c :: r => if c = ' ' then digitsVal r else digitsVal (c :: r)

/-- Whether a digit run matches `%H`'s pattern `2[0-3]|[0-1]\d|\d`
exactly: a single character of the run (any Unicode digit) always does. -/
def okH (r : List Char) : Bool :=
  match r with
  | [_] => true
  | [c1, c2] => (c1 = '2' && asciiBetween '0' '3' c2) || ((c1 = '0' || c1 = '1') && isDig c2)
  | _ => false

/-- Whether a digit run matches `%M`'s pattern `[0-5]\d|\d` exactly. -/
def okMS (r : List Char) : Bool :=
  match r with
  | [_] => true
  | [c1, c2] => asciiBetween '0' '5' c1 && isDig c2
  | _ => false

/-- Whether a digit run matches `%S`'s pattern `6[0-1]|[0-5]\d|\d`
exactly (the regex admits the leap seconds 60 and 61; the `datetime`
constructor rejects them afterwards). -/
def okS (r : List Char) : Bool :=
  match r with
  | [_] => true
  | [c1, c2] => (c1 = '6' && asciiBetween '0' '1' c2) || (asciiBetween '0' '5' c1 && isDig c2)
  | _ => false

/-- One numeric field of `strptime`'s regex: the maximal digit run must
match the field's pattern exactly. -/
def pField (ok : List Char → Bool) (cs : List Char) : Option (Nat × List Char) :=
  if ok (takeDigits cs).1 then some (digitsVal (takeDigits cs).1, (takeDigits cs).2)
  else none

/-- The `%d` field: a digit run, or the ` [1-9]` alternative — a space
followed by a single ASCII digit run. -/
def pDay (cs : List Char) : Option (Nat × List Char) :=
  match cs with
  | [] => pField okD []
  | c :: rest =>
    if c = ' ' then
      if okDaySpace (takeDigits rest).1 then
        some (digitsVal (takeDigits rest).1, (takeDigits rest).2)
      else none
    else pField okD (c :: rest)

/-- One literal of `strptime`'s regex; `_strptime` compiles with
IGNORECASE, so a letter matches either case. -/
def pLit (a b : Char) : List Char → Option (List Char)
  | c :: r => if c = a ∨ c = b then some r else none
  | [] => none

/-- Whether a year is a Gregorian leap year. -/
def isLeap (y : Nat) : Bool := (y % 4 = 0 && y % 100 ≠ 0) || y % 400 = 0

/-- Days in a month, as `datetime`'s constructor validates them. -/
def daysInMonth (y m : Nat) : Nat :=
  if m = 2 then (if isLeap y then 29 else 28)
  else if m = 4 ∨ m = 6 ∨ m = 9 ∨ m = 11 then 30
  else 31

/-- `datetime.strptime(s, "%Y-%m-%dT%H:%M:%SZ")`: each field's maximal
digit run must match its `_strptime` pattern exactly, the whole string
must be consumed, and the `datetime` constructor then requires the year
to be at least 1 (MINYEAR), the day to fit the month, and the second to
be at most 59 (the regex alone admits 60 and 61). -/
def strptime (s : String) : Option PyDateTime :=
  (pField okY s.toList).bind fun y =>
  (pLit '-' '-' y.2).bind fun r2 =>
  (pField okM r2).bind fun mo =>
  (pLit '-' '-' mo.2).bind fun r4 =>
  (pDay r4).bind fun d =>
  (pLit 'T' 't' d.2).bind fun r6 =>
  (pField okH r6).bind fun h =>
  (pLit ':' ':' h.2).bind fun r8 =>
  (pField okMS r8).bind fun mi =>
  (pLit ':' ':' mi.2).bind fun r10 =>
  (pField okS r10).bind fun se =>
  (pLit 'Z' 'z' se.2).bind fun r12 =>
  if r12 = [] ∧ 1 ≤ y.1 ∧ d.1 ≤ daysInMonth y.1 mo.1 ∧ se.1 ≤ 59 then
    some ⟨y.1, mo.1, d.1, h.1, mi.1, se.1⟩
  else none

/-- Ordinal suffix exactly as `format_timestamp` computes it. -/
def ordSuffix (day : Nat) : String :=
  if 11 ≤ day ∧ day ≤ 13 then "th"
  else
    match day % 10 with
    | 1 => "st"
    | 2 => "nd"
    | 3 => "rd"
    | _ => "th"

/-- Full English month names, as `%B` renders them. -/
def monthName (m : Nat) : String :=
  ["January", "February", "March", "April", "May", "June", "July",
   "August", "September", "October", "November", "December"].getD (m - 1) ""

/-- Two-digit zero padding, as `%I` and `%M` render. -/
def pad2 (n : Nat) : String := if n < 10 then "0" ++ toString n else toString n

/-- The 12-hour clock hour `%I` renders (0 becomes 12, 13 becomes 1). -/
def hour12 (h : Nat) : Nat := if h % 12 = 0 then 12 else h % 12

/-- The `%p` marker. -/
def ampm (h : Nat) : String := if h < 12 then "AM" else "PM"

/-- `format_timestamp` from `app.py`: parse with `strptime` (ValueError on
failure), then render `"%-d{suffix} %B %Y - %I:%M %p UTC"`. -/
def format_timestamp (iso_ts : String) : Except PyError String :=
  match strptime iso_ts with
  | none => .error .valueError
  | some dt =>
    .ok (toString dt.day ++ ordSuffix dt.day ++ " " ++ monthName dt.month ++ " " ++
      toString dt.year ++ " - " ++ pad2 (hour12 dt.hour) ++ ":" ++ pad2 dt.minute ++ " " ++
      ampm dt.hour ++ " UTC")

/-- The document `handle_webhook` inserts: the only persisted entity.
`inserted_at` models `datetime.utcnow()` as an abstract clock reading. -/
structure EventDoc where
  inserted_at : Nat
  formatted : String
deriving DecidableEq

/-- Stable descending insertion by `inserted_at`: the inserted document
goes after every document with an `inserted_at` at least its own. -/
def mongoInsert (d : EventDoc) : List EventDoc → List EventDoc
  | [] => [d]
  | x :: xs => if d.inserted_at ≤ x.inserted_at then x :: mongoInsert d xs else d :: x :: xs

/-- Modelled from the spec: the ordering `collection.find().sort("inserted_at", -1)`
delivers, which is not code of this repository. Per the spec's Event Store
contract it is descending by `inserted_at` with ties broken by reverse
insertion order (a later insert sorts first); the collection list is kept
in insertion order. -/
def mongoSortDesc : List EventDoc → List EventDoc
  | [] => []
  | d :: ds => mongoInsert d (mongoSortDesc ds)

/-- Modelled from the spec: `collection.find().sort("inserted_at", -1).limit(n)`. -/
def mongoFindSortDescLimit (store : List EventDoc) (n : Nat) : List EventDoc :=
  (mongoSortDesc store).take n

/-- `get_events` from `app.py`: the latest 50 `formatted` strings, sorted
by insertion time descending. -/
def get_events (store : List EventDoc) : List String :=
  (mongoFindSortDescLimit store 50).map (fun doc => doc.formatted)

/-- How a request terminates other than by a normal `return`: `abort(403)`
raises an HTTPException Flask turns into that status, and an uncaught
Python exception becomes a 500 response. -/
inductive Fault where
  | abort (status : Nat)
  | pyErr (e : PyError)
deriving DecidableEq

/-- The field reads the `pull_request` branch performs, in source order,
before it inspects the action: `payload["action"]`, `payload["pull_request"]`,
`pr["user"]["login"]`, `pr["head"]["ref"]`, `pr["base"]["ref"]`. -/
def prFields (payload : Json) : Except PyError (Json × Json × Json × Json × Json) := do
  let action ← payload.getItem "action"
  let pr ← payload.getItem "pull_request"
  let author ← (← pr.getItem "user").getItem "login"
  let from_branch ← (← pr.getItem "head").getItem "ref"
  let to_branch ← (← pr.getItem "base").getItem "ref"
  pure (action, pr, author, from_branch, to_branch)

/-- Python equality of a JSON value against a string literal. -/
def Json.eqStr : Json → String → Bool
  | .str s, t => s = t
  | _, _ => false

/-- The condition of the merged branch: `action == "closed" and pr.get("merged")`,
with Python's short-circuit evaluation and truthiness. -/
def mergedFlag (action pr : Json) : Except PyError Bool :=
  if action.eqStr "closed" then (pr.dictGet "merged").map truthyOpt
  else .ok false

/-- The `push` branch of `handle_webhook`: author, branch (the final
"/"-delimited segment of `ref`), commit timestamp, then the formatted
document. Any missing field or unparsable timestamp raises. -/
def pushDoc (payload : Json) (now : Nat) : Except PyError EventDoc := do
  let author ← payload.getItem "pusher" >>= fun j => j.getItem "name"
  let refs ← payload.getItem "ref" >>= Json.asStrA
  let to_branch := String.mk ((pySplitCh '/' refs.toList).getLastD [])
  let ts ← (payload.getItem "head_commit" >>= fun j => j.getItem "timestamp") >>= Json.asStrT
  let fts ← format_timestamp ts
  pure ⟨now, "\"" ++ pyStr author ++ "\" pushed to \"" ++ to_branch ++ "\" on " ++ fts⟩

/-- The `pull_request` branch of `handle_webhook`: `none` is the ignored
outcome (any action other than "opened" or a merged "closed"). -/
def prDoc (payload : Json) (now : Nat) : Except PyError (Option EventDoc) := do
  let (action, pr, author, from_branch, to_branch) ← prFields payload
  let merged ← mergedFlag action pr
  if action.eqStr "opened" then
    let ts ← pr.getItem "created_at" >>= Json.asStrT
    let fts ← format_timestamp ts
    pure (some ⟨now, "\"" ++ pyStr author ++ "\" submitted a pull request from \"" ++
      pyStr from_branch ++ "\" to \"" ++ pyStr to_branch ++ "\" on " ++ fts⟩)
  else if merged then
    let ts ← pr.getItem "merged_at" >>= Json.asStrT
    let fts ← format_timestamp ts
    pure (some ⟨now, "\"" ++ pyStr author ++ "\" merged branch \"" ++ pyStr from_branch ++
      "\" to \"" ++ pyStr to_branch ++ "\" on " ++ fts⟩)
  else
    pure none

/-- `handle_webhook` from `app.py`, given the parsed JSON body and the
clock reading `now` for `datetime.utcnow()`. The result is the response
(status code and the `status` field of its JSON body) together with the
store after the request; a `Fault` is a 403 abort or an uncaught
exception. -/
def handle_webhook (hm : String → String → String) (SECRET_TOKEN : Option String)
    (signature : Option String) (event_type : Option String) (rawBody : String)
    (payload : Json) (now : Nat) (store : List EventDoc) :
    Except Fault (Nat × String × List EventDoc) := do
  let ok ← (verify_signature hm SECRET_TOKEN rawBody signature).mapError Fault.pyErr
  if !ok then
    throw (Fault.abort 403)
  else if event_type = some "push" then
    match pushDoc payload now with
    | .error e => throw (Fault.pyErr e)
    | .ok doc => pure (201, "stored", store ++ [doc])
  else if event_type = some "pull_request" then
    match prDoc payload now with
    | .error e => throw (Fault.pyErr e)
    | .ok (some doc) => pure (201, "stored", store ++ [doc])
    | .ok none => pure (200, "ignored", store)
  else
    pure (200, "ignored", store)

/-- The HTTP status a request's termination produces: a normal return's
status, an abort's status, and 500 for an uncaught exception. -/
def responseStatus : Except Fault (Nat × String × List EventDoc) → Nat
  | .ok r => r.1
  | .error (.abort s) => s
  | .error (.pyErr _) => 500

/-- The store contents after a request: a fault leaves the store as it was. -/
def storeAfter (store : List EventDoc) : Except Fault (Nat × String × List EventDoc) → List EventDoc
  | .ok r => r.2.2
  | .error _ => store

/-- A concrete digest function used to instantiate witnesses. -/
def hmSample : String → String → String := fun _ _ => "aa"

/-! ## Lemmas about Python's `str.split` -/

theorem pySplitCh_ne_nil (sep : Char) (cs : List Char) : pySplitCh sep cs ≠ [] := by
  induction cs with
  | nil => simp [pySplitCh]
  | cons c rest ih =>
    simp only [pySplitCh]
    split
    · simp
    · rcases h : pySplitCh sep rest with _ | ⟨r, rs⟩
      · simp
      · simp

theorem pySplitCh_not_mem {sep : Char} {cs : List Char} (h : sep ∉ cs) :
    pySplitCh sep cs = [cs] := by
  induction cs with
  | nil => rfl
  | cons c rest ih =>
    simp only [List.mem_cons, not_or] at h
    simp only [pySplitCh]
    rw [if_neg (fun hc => h.1 hc.symm), ih h.2]

theorem pySplitCh_append {sep : Char} {pre rest : List Char} (h : sep ∉ pre) :
    pySplitCh sep (pre ++ sep :: rest) = pre :: pySplitCh sep rest := by
  induction pre with
  | nil => simp [pySplitCh]
  | cons c pcs ih =>
    simp only [List.mem_cons, not_or] at h
    have hcs : ¬ c = sep := fun hc => h.1 hc.symm
    simp [pySplitCh, hcs, ih h.2]

theorem length_pySplitCh (sep : Char) (cs : List Char) :
    (pySplitCh sep cs).length = cs.count sep + 1 := by
  induction cs with
  | nil => simp [pySplitCh]
  | cons c rest ih =>
    simp only [pySplitCh]
    by_cases hc : c = sep
    · subst hc
      simp [List.count_cons, ih]
    · rw [if_neg hc]
      rcases hs : pySplitCh sep rest with _ | ⟨r, rs⟩
      · exact absurd hs (pySplitCh_ne_nil sep rest)
      · rw [hs] at ih
        simp only [List.length_cons] at ih ⊢
        rw [List.count_cons, if_neg (fun hx => hc (by simpa using hx))]
        simpa using ih

theorem string_ne_empty_iff (s : String) : s ≠ "" ↔ s.data ≠ [] := by
  constructor
  · intro h hd
    exact h (by cases s; simp_all [String.ext_iff])
  · intro h hs
    exact h (by cases s; simp_all [String.ext_iff])

/-- With the secret set and a single-separator header, `verify_signature`
computes the decidable comparison of algorithm name and digest. -/
theorem verify_signature_eq (hm : String → String → String) (sec payload : String)
    (alg dig : List Char) (hsec : sec ≠ "") (halg : eqCh ∉ alg) (hdig : eqCh ∉ dig) :
    verify_signature hm (some sec) payload (some (String.mk (alg ++ eqCh :: dig)))
        = .ok (decide (String.mk alg = "sha1" ∧ hm sec payload = String.mk dig)) := by
  have hslen : ¬ (sec.length = 0 ∨ (String.mk (alg ++ eqCh :: dig)).length = 0) := by
    rintro (h | h)
    · exact (string_ne_empty_iff sec).mp hsec (List.length_eq_zero.mp h)
    · simp [String.length] at h
  show (if sec.length = 0 ∨ _ then _ else _) = _
  rw [if_neg hslen]
  show (match pySplitCh eqCh (String.mk (alg ++ eqCh :: dig)).toList with
    | [sha_name, signature] => _ | _ => _) = _
  have hsplit : pySplitCh eqCh (String.mk (alg ++ eqCh :: dig)).toList
      = [alg, dig] := by
    show pySplitCh eqCh (alg ++ eqCh :: dig) = [alg, dig]
    rw [pySplitCh_append halg, pySplitCh_not_mem hdig]
  rw [hsplit]
  by_cases ha : String.mk alg = "sha1"
  · simp [ha]
  · simp [ha]

/-! ## Small reduction lemmas for the `Except` monad -/

@[simp] theorem exceptBind_ok {ε α β : Type} (a : α) (f : α → Except ε β) :
    (Except.ok a >>= f) = f a := rfl

@[simp] theorem exceptBind_error {ε α β : Type} (e : ε) (f : α → Except ε β) :
    ((Except.error e : Except ε α) >>= f) = Except.error e := rfl

@[simp] theorem exceptMap_ok {ε α β : Type} (f : α → β) (a : α) :
    (f <$> (Except.ok a : Except ε α)) = Except.ok (f a) := rfl

@[simp] theorem exceptMap_error {ε α β : Type} (f : α → β) (e : ε) :
    (f <$> (Except.error e : Except ε α)) = Except.error e := rfl

@[simp] theorem exceptPure_eq {ε α : Type} (a : α) :
    (pure a : Except ε α) = Except.ok a := rfl

@[simp] theorem exceptThrow_eq {ε α : Type} (e : ε) :
    (throw e : Except ε α) = Except.error e := rfl

@[simp] theorem exceptMapF_ok {ε α β : Type} (f : α → β) (a : α) :
    (Except.ok a : Except ε α).map f = Except.ok (f a) := rfl

@[simp] theorem exceptMapF_error {ε α β : Type} (f : α → β) (e : ε) :
    (Except.error e : Except ε α).map f = Except.error e := rfl

@[simp] theorem exceptMapError_ok {ε ε2 α : Type} (f : ε → ε2) (a : α) :
    (Except.ok a : Except ε α).mapError f = Except.ok a := rfl

@[simp] theorem exceptMapError_error {ε ε2 α : Type} (f : ε → ε2) (e : ε) :
    (Except.error e : Except ε α).mapError f = Except.error (f e) := rfl

/-! ## Claims C1 to C3: the Signature Verifier -/

/-- C1: with the secret set and a header of the form `<algorithm>=<hexDigest>`
(one separator, so neither part contains `=`), `verify_signature` returns
true iff the algorithm is `sha1` and the digest equals the keyed digest of
the body under the secret; any digest differing from the correct one, such
as one with a flipped hex character, yields false. -/
theorem C1_verify_signature_iff (hm : String → String → String) (sec payload : String)
    (alg dig : List Char) (hsec : sec ≠ "") (halg : eqCh ∉ alg) (hdig : eqCh ∉ dig) :
    (verify_signature hm (some sec) payload (some (String.mk (alg ++ eqCh :: dig)))
        = .ok true ↔ (String.mk alg = "sha1" ∧ hm sec payload = String.mk dig))
    ∧ ∀ dig2 : List Char, eqCh ∉ dig2 → String.mk dig2 ≠ hm sec payload →
        verify_signature hm (some sec) payload (some (String.mk (alg ++ eqCh :: dig2)))
          = .ok false := by
  constructor
  · rw [verify_signature_eq hm sec payload alg dig hsec halg hdig]
    constructor
    · intro h
      have : decide (String.mk alg = "sha1" ∧ hm sec payload = String.mk dig) = true := by
        simpa using h
      exact of_decide_eq_true this
    · intro h
      simp [h.1, h.2]
  · intro dig2 hdig2 hne
    rw [verify_signature_eq hm sec payload alg dig2 hsec halg hdig2]
    have hne2 : hm sec payload ≠ String.mk dig2 := fun h => hne h.symm
    simp [hne2]

/-- C1 witness: a correct `sha1=` digest verifies and a one-character flip
of it does not. -/
theorem C1_witness :
    verify_signature hmSample (some "k") "p" (some "sha1=aa") = .ok true
    ∧ verify_signature hmSample (some "k") "p" (some "sha1=ab") = .ok false := by
  constructor
  · exact (C1_verify_signature_iff hmSample "k" "p"
      (String.toList "sha1") (String.toList "aa")
      (by decide) (by decide) (by decide)).1.mpr ⟨by decide, by decide⟩
  · exact (C1_verify_signature_iff hmSample "k" "p"
      (String.toList "sha1") (String.toList "aa")
      (by decide) (by decide) (by decide)).2 (String.toList "ab") (by decide) (by decide)

/-- C2 counterexample: with the secret set, a signature header with no `=`
separator makes `verify_signature` raise ValueError (the 2-tuple unpacking
of `split("=")` fails) instead of returning false, and so does a header
with two separators. -/
theorem C2_counterexample :
    verify_signature hmSample (some "secret") "body" (some "nosep") = .error .valueError
    ∧ verify_signature hmSample (some "secret") "body" (some "a=b=c") = .error .valueError := by
  decide

/-- C2 as amended: with the secret set, a header whose single `=` leaves an
empty algorithm or digest part returns false (the computed hex digest is
never empty), but a non-empty header with no `=` at all, or one with two or
more `=`, raises ValueError rather than returning false. -/
theorem C2_verify_malformed (hm : String → String → String) (sec payload : String)
    (hsec : sec ≠ "") :
    (∀ cs : List Char, cs ≠ [] → cs.count eqCh = 0 →
      verify_signature hm (some sec) payload (some (String.mk cs)) = .error .valueError)
    ∧ (∀ cs : List Char, 2 ≤ cs.count eqCh →
      verify_signature hm (some sec) payload (some (String.mk cs)) = .error .valueError)
    ∧ (∀ dig : List Char, eqCh ∉ dig →
      verify_signature hm (some sec) payload (some (String.mk (eqCh :: dig))) = .ok false)
    ∧ (∀ alg : List Char, eqCh ∉ alg → hm sec payload ≠ "" →
      verify_signature hm (some sec) payload (some (String.mk (alg ++ [eqCh]))) = .ok false) := by
  have hsd : sec.length ≠ 0 := fun h => (string_ne_empty_iff sec).mp hsec (List.length_eq_zero.mp h)
  refine ⟨?_, ?_, ?_, ?_⟩
  · intro cs hne hcount
    have hslen : ¬ (sec.length = 0 ∨ (String.mk cs).length = 0) := by
      rintro (h | h)
      · exact hsd h
      · exact hne (by simpa [String.length] using h)
    show (if sec.length = 0 ∨ _ then _ else _) = _
    rw [if_neg hslen]
    have hsplit : pySplitCh eqCh (String.mk cs).toList = [cs] :=
      pySplitCh_not_mem (by simpa using List.count_eq_zero.mp hcount)
    show (match pySplitCh eqCh (String.mk cs).toList with
      | [sha_name, signature] => _ | _ => _) = _
    rw [hsplit]
  · intro cs hcount
    have hne : cs ≠ [] := by
      rintro rfl
      simp at hcount
    have hslen : ¬ (sec.length = 0 ∨ (String.mk cs).length = 0) := by
      rintro (h | h)
      · exact hsd h
      · exact hne (by simpa [String.length] using h)
    show (if sec.length = 0 ∨ _ then _ else _) = _
    rw [if_neg hslen]
    have hlen : (pySplitCh eqCh (String.mk cs).toList).length = cs.count eqCh + 1 :=
      length_pySplitCh eqCh cs
    show (match pySplitCh eqCh (String.mk cs).toList with
      | [sha_name, signature] => _ | _ => _) = _
    rcases hs : pySplitCh eqCh (String.mk cs).toList with _ | ⟨a, _ | ⟨b, _ | ⟨c, rest⟩⟩⟩
    · rfl
    · rfl
    · rw [hs] at hlen
      simp at hlen
      omega
    · rfl
  · intro dig hdig
    have h := verify_signature_eq hm sec payload [] dig hsec (by simp) hdig
    have hsha : ¬ String.mk ([] : List Char) = "sha1" := by decide
    rw [List.nil_append] at h
    rw [h]
    simp [hsha]
  · intro alg halg hne
    have h := verify_signature_eq hm sec payload alg [] hsec halg (by simp)
    have hne2 : ¬ hm sec payload = String.mk ([] : List Char) := by
      intro hx
      exact hne (by simpa [String.ext_iff] using hx)
    rw [h]
    simp [hne2]

/-- C2 witness: an empty algorithm part and an empty digest part each
return false, a missing separator raises. -/
theorem C2_witness :
    verify_signature hmSample (some "k") "p" (some "=aa") = .ok false
    ∧ verify_signature hmSample (some "k") "p" (some "sha1=") = .ok false
    ∧ verify_signature hmSample (some "k") "p" (some "x") = .error .valueError := by
  refine ⟨?_, ?_, ?_⟩
  · exact (C2_verify_malformed hmSample "k" "p" (by decide)).2.2.1
      (String.toList "aa") (by decide)
  · have h := (C2_verify_malformed hmSample "k" "p" (by decide)).2.2.2
      (String.toList "sha1") (by decide) (by decide)
    exact h
  · exact (C2_verify_malformed hmSample "k" "p" (by decide)).1 (String.toList "x")
      (by decide) (by decide)

/-! ## Claim C4: the three recognized events and their summaries -/

/-- C4: a verified request produces exactly the specified summary for each
of the three recognized events: a push stores
`"<author>" pushed to "<branch>" on <ts>` with the branch the final
"/"-delimited segment of `ref`; an opened pull request stores
`"<author>" submitted a pull request from "<head>" to "<base>" on <ts>`
with the timestamp from `created_at`; a closed pull request with
`merged` true stores `"<author>" merged branch "<head>" to "<base>" on <ts>`
with the timestamp from `merged_at`. -/
theorem C4_summaries (hm : String → String → String) (sec sig : Option String)
    (body : String) (payload : Json) (now : Nat) (store : List EventDoc)
    (hv : verify_signature hm sec body sig = .ok true) :
    (∀ (author refs ts fts : String),
      (payload.getItem "pusher" >>= fun j => j.getItem "name") = .ok (.str author) →
      payload.getItem "ref" = .ok (.str refs) →
      (payload.getItem "head_commit" >>= fun j => j.getItem "timestamp") = .ok (.str ts) →
      format_timestamp ts = .ok fts →
      handle_webhook hm sec sig (some "push") body payload now store
        = .ok (201, "stored", store ++
            [⟨now, "\"" ++ author ++ "\" pushed to \"" ++
              String.mk ((pySplitCh '/' refs.toList).getLastD []) ++ "\" on " ++ fts⟩]))
    ∧ (∀ (pr : Json) (author fromB toB ts fts : String),
      prFields payload = .ok (.str "opened", pr, .str author, .str fromB, .str toB) →
      pr.getItem "created_at" = .ok (.str ts) →
      format_timestamp ts = .ok fts →
      handle_webhook hm sec sig (some "pull_request") body payload now store
        = .ok (201, "stored", store ++
            [⟨now, "\"" ++ author ++ "\" submitted a pull request from \"" ++ fromB ++
              "\" to \"" ++ toB ++ "\" on " ++ fts⟩]))
    ∧ (∀ (pr : Json) (author fromB toB ts fts : String),
      prFields payload = .ok (.str "closed", pr, .str author, .str fromB, .str toB) →
      pr.dictGet "merged" = .ok (some (.bool true)) →
      pr.getItem "merged_at" = .ok (.str ts) →
      format_timestamp ts = .ok fts →
      handle_webhook hm sec sig (some "pull_request") body payload now store
        = .ok (201, "stored", store ++
            [⟨now, "\"" ++ author ++ "\" merged branch \"" ++ fromB ++
              "\" to \"" ++ toB ++ "\" on " ++ fts⟩])) := by
  refine ⟨?_, ?_, ?_⟩
  · intro author refs ts fts h1 h2 h3 h4
    have hp : pushDoc payload now = .ok ⟨now, "\"" ++ author ++ "\" pushed to \"" ++
        String.mk ((pySplitCh '/' refs.toList).getLastD []) ++ "\" on " ++ fts⟩ := by
      simp [pushDoc, h1, h2, h3, h4, Json.asStrA, Json.asStrT, pyStr]
    simp [handle_webhook, hv, hp, Except.mapError]
  · intro pr author fromB toB ts fts hf hc h4
    have hp : prDoc payload now = .ok (some ⟨now,
        "\"" ++ author ++ "\" submitted a pull request from \"" ++ fromB ++
        "\" to \"" ++ toB ++ "\" on " ++ fts⟩) := by
      simp [prDoc, hf, hc, h4, mergedFlag, Json.eqStr, Json.asStrT, pyStr]
    simp [handle_webhook, hv, hp, Except.mapError]
  · intro pr author fromB toB ts fts hf hmg hc h4
    have hp : prDoc payload now = .ok (some ⟨now,
        "\"" ++ author ++ "\" merged branch \"" ++ fromB ++
        "\" to \"" ++ toB ++ "\" on " ++ fts⟩) := by
      simp [prDoc, hf, hmg, hc, h4, mergedFlag, Json.eqStr, Json.asStrT, pyStr, truthyOpt,
        Json.truthy]
    simp [handle_webhook, hv, hp, Except.mapError]

/-- A sample push payload. -/
def pushPayload : Json := .obj
  [("pusher", .obj [("name", .str "alice")]),
   ("ref", .str "refs/heads/main"),
   ("head_commit", .obj [("timestamp", .str "2021-04-01T21:30:00Z")])]

/-- The dictionary of a sample pull request. -/
def prInner (extra : List (String × Json)) : Json := .obj
  ([("user", .obj [("login", .str "bob")]),
    ("head", .obj [("ref", .str "feature")]),
    ("base", .obj [("ref", .str "main")])] ++ extra)

/-- A sample opened pull request payload. -/
def prOpenedPayload : Json := .obj
  [("action", .str "opened"),
   ("pull_request", prInner [("created_at", .str "2021-04-01T09:00:00Z")])]

/-- A sample merged pull request payload. -/
def prMergedPayload : Json := .obj
  [("action", .str "closed"),
   ("pull_request", prInner [("merged", .bool true), ("merged_at", .str "2021-04-02T12:00:00Z")])]

/-- C4 witness: the three recognized events at concrete payloads, end to
end through `handle_webhook`. -/
theorem C4_witness :
    handle_webhook hmSample none none (some "push") "" pushPayload 7 []
      = .ok (201, "stored", [⟨7, "\"alice\" pushed to \"main\" on 1st April 2021 - 09:30 PM UTC"⟩])
    ∧ handle_webhook hmSample none none (some "pull_request") "" prOpenedPayload 8 []
      = .ok (201, "stored", [⟨8, "\"bob\" submitted a pull request from \"feature\" to \"main\" on 1st April 2021 - 09:00 AM UTC"⟩])
    ∧ handle_webhook hmSample none none (some "pull_request") "" prMergedPayload 9 []
      = .ok (201, "stored", [⟨9, "\"bob\" merged branch \"feature\" to \"main\" on 2nd April 2021 - 12:00 PM UTC"⟩]) := by
  refine ⟨?_, ?_, ?_⟩
  · exact ((C4_summaries hmSample none none "" pushPayload 7 [] rfl).1
      "alice" "refs/heads/main" "2021-04-01T21:30:00Z" "1st April 2021 - 09:30 PM UTC"
      rfl rfl rfl (by decide)).trans (by decide)
  · exact ((C4_summaries hmSample none none "" prOpenedPayload 8 [] rfl).2.1
      (prInner [("created_at", .str "2021-04-01T09:00:00Z")])
      "bob" "feature" "main" "2021-04-01T09:00:00Z" "1st April 2021 - 09:00 AM UTC"
      rfl rfl (by decide)).trans (by decide)
  · exact ((C4_summaries hmSample none none "" prMergedPayload 9 [] rfl).2.2
      (prInner [("merged", .bool true), ("merged_at", .str "2021-04-02T12:00:00Z")])
      "bob" "feature" "main" "2021-04-02T12:00:00Z" "2nd April 2021 - 12:00 PM UTC"
      rfl rfl rfl (by decide)).trans (by decide)

/-! ## Claims C7, C8, C10: dispatch, ignoring, and the store frame -/

/-- Every request terminates as a fault, as 200-ignored with the store
unchanged, or as 201-stored with exactly one appended document. -/
theorem handle_webhook_shape (hm : String → String → String) (sec sig et : Option String)
    (body : String) (payload : Json) (now : Nat) (store : List EventDoc) :
    (∃ f, handle_webhook hm sec sig et body payload now store = .error f)
    ∨ handle_webhook hm sec sig et body payload now store = .ok (200, "ignored", store)
    ∨ ∃ d, handle_webhook hm sec sig et body payload now store
        = .ok (201, "stored", store ++ [d]) := by
  rcases hv : verify_signature hm sec body sig with e | b
  · exact .inl ⟨.pyErr e, by simp [handle_webhook, hv]⟩
  · rcases b with _ | _
    · exact .inl ⟨.abort 403, by simp [handle_webhook, hv]⟩
    · by_cases hpush : et = some "push"
      · rcases hd : pushDoc payload now with e | d
        · exact .inl ⟨.pyErr e, by simp [handle_webhook, hv, hpush, hd]⟩
        · exact .inr (.inr ⟨d, by simp [handle_webhook, hv, hpush, hd]⟩)
      · by_cases hpr : et = some "pull_request"
        · rcases hd : prDoc payload now with e | (_ | d)
          · exact .inl ⟨.pyErr e, by simp [handle_webhook, hv, hpush, hpr, hd]⟩
          · exact .inr (.inl (by simp [handle_webhook, hv, hpush, hpr, hd]))
          · exact .inr (.inr ⟨d, by simp [handle_webhook, hv, hpush, hpr, hd]⟩)
        · exact .inr (.inl (by simp [handle_webhook, hv, hpush, hpr]))

/-- C7 counterexample: a verified `pull_request` request whose action
("reopened") is neither "opened" nor a merged close does not return
200-ignored — its payload lacks the `pull_request` field, so the handler
raises KeyError (a 500, and the claim quantifies over every such request). -/
theorem C7_counterexample :
    handle_webhook hmSample none none (some "pull_request") ""
      (.obj [("action", .str "reopened")]) 0 [] = .error (.pyErr .keyError) := by
  decide

/-- C7 as amended: a verified request whose event type is neither "push"
nor "pull_request" returns 200 with "ignored" and leaves the store
unchanged, whatever the payload; and a verified "pull_request" request
whose five dispatch fields are all present returns 200 with "ignored" and
leaves the store unchanged whenever its action is neither "opened" nor
"closed"-with-truthy-merged. -/
theorem C7_ignored (hm : String → String → String) (sec sig : Option String)
    (body : String) (payload : Json) (now : Nat) (store : List EventDoc)
    (hv : verify_signature hm sec body sig = .ok true) :
    (∀ et : Option String, et ≠ some "push" → et ≠ some "pull_request" →
      handle_webhook hm sec sig et body payload now store = .ok (200, "ignored", store))
    ∧ (∀ action pr author fromB toB : Json,
      prFields payload = .ok (action, pr, author, fromB, toB) →
      action.eqStr "opened" = false →
      mergedFlag action pr = .ok false →
      handle_webhook hm sec sig (some "pull_request") body payload now store
        = .ok (200, "ignored", store)) := by
  constructor
  · intro et h1 h2
    simp [handle_webhook, hv, h1, h2]
  · intro action pr author fromB toB hf hop hmg
    have hp : prDoc payload now = .ok none := by
      simp [prDoc, hf, hop, hmg]
    simp [handle_webhook, hv, hp]

/-- A sample closed-without-merge pull request payload. -/
def prClosedPayload : Json := .obj
  [("action", .str "closed"),
   ("pull_request", prInner [("merged", .bool false)])]

/-- C7 witness: an unrecognized event type and a closed-without-merge pull
request are both ignored with the store unchanged. -/
theorem C7_witness :
    handle_webhook hmSample none none (some "issues") "" (.obj []) 0 [⟨0, "x"⟩]
      = .ok (200, "ignored", [⟨0, "x"⟩])
    ∧ handle_webhook hmSample none none (some "pull_request") "" prClosedPayload 1 [⟨0, "x"⟩]
      = .ok (200, "ignored", [⟨0, "x"⟩]) := by
  constructor
  · exact (C7_ignored hmSample none none "" (.obj []) 0 [⟨0, "x"⟩] rfl).1
      (some "issues") (by decide) (by decide)
  · exact (C7_ignored hmSample none none "" prClosedPayload 1 [⟨0, "x"⟩] rfl).2
      (.str "closed") (prInner [("merged", .bool false)]) (.str "bob") (.str "feature")
      (.str "main") rfl rfl rfl

/-- C8 counterexample: a verified "push" request whose payload lacks the
required fields terminates as an uncaught KeyError, surfaced as HTTP 500 —
a server error, not the 400-class client error the claim states. -/
theorem C8_counterexample :
    handle_webhook hmSample none none (some "push") "" (.obj []) 0 []
      = .error (.pyErr .keyError)
    ∧ responseStatus (handle_webhook hmSample none none (some "push") "" (.obj []) 0 []) = 500 := by
  decide

/-- C8 as amended: a request over a recognized event type and action with
a missing required field (or an unparsable timestamp) raises an uncaught
exception surfaced as HTTP 500 — a server error, not a 400-class client
error — with no store write; and store writes happen only on the single
success path that returns 201 with "stored", appending exactly one
document. -/
theorem C8_store_writes (hm : String → String → String) (sec sig et : Option String)
    (body : String) (payload : Json) (now : Nat) (store : List EventDoc) :
    (storeAfter store (handle_webhook hm sec sig et body payload now store) ≠ store →
      ∃ d, handle_webhook hm sec sig et body payload now store
        = .ok (201, "stored", store ++ [d]))
    ∧ (∀ e, handle_webhook hm sec sig et body payload now store = .error (.pyErr e) →
      responseStatus (handle_webhook hm sec sig et body payload now store) = 500
      ∧ storeAfter store (handle_webhook hm sec sig et body payload now store) = store) := by
  rcases handle_webhook_shape hm sec sig et body payload now store with ⟨f, hf⟩ | h | ⟨d, hd⟩
  · constructor
    · intro hne
      exact absurd (by rw [hf]; rfl) hne
    · intro e he
      rw [he]
      exact ⟨rfl, rfl⟩
  · constructor
    · intro hne
      exact absurd (by rw [h]; rfl) hne
    · intro e he
      rw [h] at he
      exact absurd he (by simp)
  · constructor
    · intro _
      exact ⟨d, hd⟩
    · intro e he
      rw [hd] at he
      exact absurd he (by simp)

/-- C8 witness: at a malformed push payload the response is a 500 and the
store is unchanged. -/
theorem C8_witness :
    responseStatus (handle_webhook hmSample none none (some "push") "" (.obj []) 3 [⟨0, "x"⟩]) = 500
    ∧ storeAfter [⟨0, "x"⟩] (handle_webhook hmSample none none (some "push") "" (.obj []) 3 [⟨0, "x"⟩]) = [⟨0, "x"⟩] := by
  exact (C8_store_writes hmSample none none (some "push") "" (.obj []) 3 [⟨0, "x"⟩]).2
    .keyError (by decide)

/-- C10: on a verified "pull_request" request the handler reads `action`,
`pull_request`, `user.login`, `head.ref` and `base.ref` (in source order)
before inspecting the action, so the ignored outcome is reached only when
that whole read chain succeeds, and a payload on which it fails terminates
as that uncaught exception whatever its action. -/
theorem C10_pr_fields_read_first (hm : String → String → String) (sec sig : Option String)
    (body : String) (payload : Json) (now : Nat) (store : List EventDoc)
    (hv : verify_signature hm sec body sig = .ok true) :
    (∀ s', handle_webhook hm sec sig (some "pull_request") body payload now store
        = .ok (200, "ignored", s') → ∃ t, prFields payload = .ok t)
    ∧ (∀ e, prFields payload = .error e →
      handle_webhook hm sec sig (some "pull_request") body payload now store
        = .error (.pyErr e)) := by
  have herr : ∀ e, prFields payload = .error e →
      handle_webhook hm sec sig (some "pull_request") body payload now store
        = .error (.pyErr e) := by
    intro e he
    have hp : prDoc payload now = .error e := by
      simp [prDoc, he]
    simp [handle_webhook, hv, hp]
  refine ⟨?_, herr⟩
  intro s' hres
  rcases hp : prFields payload with e | t
  · rw [herr e hp] at hres
    exact absurd hres (by simp)
  · exact ⟨t, rfl⟩

/-- C10 witness: a pull_request payload with an ignorable action but a
missing `head` field fails with KeyError instead of being ignored. -/
theorem C10_witness :
    handle_webhook hmSample none none (some "pull_request") ""
      (.obj [("action", .str "reopened"),
             ("pull_request", .obj [("user", .obj [("login", .str "bob")])])]) 0 []
      = .error (.pyErr .keyError) := by
  exact (C10_pr_fields_read_first hmSample none none ""
    (.obj [("action", .str "reopened"),
           ("pull_request", .obj [("user", .obj [("login", .str "bob")])])]) 0 [] rfl).2
    .keyError rfl

/-! ## Claim C9: the query endpoint -/

theorem mongoInsert_eq_append (d : EventDoc) (l : List EventDoc)
    (h : ∀ x ∈ l, d.inserted_at ≤ x.inserted_at) : mongoInsert d l = l ++ [d] := by
  induction l with
  | nil => rfl
  | cons x xs ih =>
    simp only [mongoInsert]
    rw [if_pos (h x (by simp)), ih (fun y hy => h y (by simp [hy]))]
    rfl

/-- On a store whose `inserted_at` values are non-decreasing in insertion
order (the spec's clock guarantee), the modelled sort is exactly reversal:
most recent first, ties broken by reverse insertion order. -/
theorem mongoSortDesc_eq_reverse (store : List EventDoc)
    (h : store.Pairwise (fun a b => a.inserted_at ≤ b.inserted_at)) :
    mongoSortDesc store = store.reverse := by
  induction store with
  | nil => rfl
  | cons d ds ih =>
    rcases List.pairwise_cons.mp h with ⟨hd, hds⟩
    simp only [mongoSortDesc]
    rw [ih hds, mongoInsert_eq_append d ds.reverse (fun x hx => hd x (List.mem_reverse.mp hx))]
    simp

/-- C9: on any store whose insertion timestamps are non-decreasing in
insertion order, the query endpoint returns the formatted summaries most
recent first (ties broken by reverse insertion order, i.e. exactly the
reversed store truncated to 50), never more than 50 elements nor more than
the store holds, the empty sequence on the empty store, and after 60
appends exactly the 50 most recent in reverse insertion order. -/
theorem C9_recent (store : List EventDoc)
    (h : store.Pairwise (fun a b => a.inserted_at ≤ b.inserted_at)) :
    get_events store = (store.reverse.take 50).map (fun d => d.formatted)
    ∧ (get_events store).length ≤ 50
    ∧ (get_events store).length ≤ store.length
    ∧ (store = [] → get_events store = [])
    ∧ (store.length = 60 →
        get_events store = (store.reverse.take 50).map (fun d => d.formatted)
        ∧ (get_events store).length = 50) := by
  have hq : get_events store = (store.reverse.take 50).map (fun d => d.formatted) := by
    unfold get_events mongoFindSortDescLimit
    rw [mongoSortDesc_eq_reverse store h]
  have hlen : (get_events store).length = min 50 store.length := by
    rw [hq]
    simp
  refine ⟨hq, ?_, ?_, ?_, ?_⟩
  · rw [hlen]; exact min_le_left _ _
  · rw [hlen]; exact min_le_right _ _
  · rintro rfl
    rw [hq]; rfl
  · intro h60
    refine ⟨hq, ?_⟩
    rw [hlen, h60]
    decide

/-- A store of sixty sequentially appended documents. -/
def store60 : List EventDoc := (List.range 60).map (fun i => ⟨i, Nat.repr i⟩)

/-- C9 witness: a concrete store with a timestamp tie is returned most
recent first with the later insert first, and sixty appends query back
exactly fifty summaries. -/
theorem C9_witness :
    get_events [⟨1, "a"⟩, ⟨2, "b"⟩, ⟨2, "c"⟩] = ["c", "b", "a"]
    ∧ (get_events store60).length = 50 := by
  constructor
  · exact ((C9_recent [⟨1, "a"⟩, ⟨2, "b"⟩, ⟨2, "c"⟩] (by decide)).1).trans (by decide)
  · exact ((C9_recent store60 (by decide)).2.2.2.2 (by decide)).2

/-- C3: verification is skipped, returning true, whenever the secret is
unset or the signature header is absent, regardless of body and header
contents. -/
theorem C3_verify_skipped (hm : String → String → String) (sec payload : String)
    (header : Option String) :
    verify_signature hm none payload header = .ok true
    ∧ verify_signature hm (some sec) payload none = .ok true := by
  constructor
  · rfl
  · rfl

/-! ## Claim C5: the rendered timestamp format -/

/-- The ordinal suffix rule as the specification words it: days 11, 12, 13
take "th"; otherwise by the last digit. -/
def specOrdinalSuffix (day : Nat) : String :=
  if day = 11 ∨ day = 12 ∨ day = 13 then "th"
  else if day % 10 = 1 then "st"
  else if day % 10 = 2 then "nd"
  else if day % 10 = 3 then "rd"
  else "th"

theorem matchMod10_eq_ifchain (r : Nat) :
    (match r with | 1 => "st" | 2 => "nd" | 3 => "rd" | _ => "th")
      = (if r = 1 then "st" else if r = 2 then "nd" else if r = 3 then "rd" else "th") := by
  rcases r with _ | _ | _ | _ | k <;> rfl

theorem ordSuffix_eq_spec (day : Nat) : ordSuffix day = specOrdinalSuffix day := by
  unfold ordSuffix specOrdinalSuffix
  by_cases h11 : 11 ≤ day ∧ day ≤ 13
  · rw [if_pos h11, if_pos (by omega)]
  · rw [if_neg h11, if_neg (by omega)]
    exact matchMod10_eq_ifchain (day % 10)

/-- C5: every timestamp `strptime` accepts is rendered as
`{day}{ordinalSuffix} {MonthName} {Year} - {hour12:02}:{minute:02} {AM|PM} UTC`
with the specification's ordinal suffix rule, and the two cited examples
render exactly as claimed. -/
theorem C5_format_rendering :
    (∀ (s : String) (dt : PyDateTime), strptime s = some dt →
      format_timestamp s = .ok (toString dt.day ++ specOrdinalSuffix dt.day ++ " " ++
        monthName dt.month ++ " " ++ toString dt.year ++ " - " ++
        pad2 (hour12 dt.hour) ++ ":" ++ pad2 dt.minute ++ " " ++ ampm dt.hour ++ " UTC"))
    ∧ format_timestamp "2021-04-01T21:30:00Z" = .ok "1st April 2021 - 09:30 PM UTC"
    ∧ format_timestamp "2021-04-11T00:05:00Z" = .ok "11th April 2021 - 12:05 AM UTC" := by
  refine ⟨?_, by decide, by decide⟩
  intro s dt hp
  simp only [format_timestamp, hp, ordSuffix_eq_spec]

/-- C5 witness: the rendering theorem applied at a concrete timestamp
(the spec's third example, a "nd" day with a PM hour). -/
theorem C5_witness :
    format_timestamp "2021-04-22T13:00:00Z" = .ok "22nd April 2021 - 01:00 PM UTC" := by
  exact (C5_format_rendering.1 "2021-04-22T13:00:00Z" ⟨2021, 4, 22, 13, 0, 0⟩
    (by decide)).trans (by decide)

/-! ## Claim C6: which inputs `strptime` accepts -/

theorem isDig_digVal_le9 {c : Char} (h : isDig c = true) : digVal c ≤ 9 := by
  unfold isDig at h
  rcases hz : digitBase? c.toNat with _ | z
  · rw [hz] at h
    simp at h
  · have hp := List.find?_some (by simpa [digitBase?] using hz)
    simp only [Bool.and_eq_true, decide_eq_true_eq] at hp
    unfold digVal
    rw [hz]
    simp only [Option.getD_some]
    omega

theorem ascii_digitBase {c : Char} (h1 : 48 ≤ c.toNat) (h2 : c.toNat ≤ 57) :
    digitBase? c.toNat = some 48 := by
  unfold digitBase? digitZeros
  exact List.find?_cons_of_pos _ (by
    simp only [Bool.and_eq_true, decide_eq_true_eq]
    omega)

theorem ascii_isDig {c : Char} (h1 : 48 ≤ c.toNat) (h2 : c.toNat ≤ 57) : isDig c = true := by
  simp [isDig, ascii_digitBase h1 h2]

theorem ascii_digVal {c : Char} (h1 : 48 ≤ c.toNat) (h2 : c.toNat ≤ 57) :
    digVal c = c.toNat - 48 := by
  simp [digVal, ascii_digitBase h1 h2]

theorem asciiBetween_bounds {lo hi c : Char} (h : asciiBetween lo hi c = true) :
    lo.toNat ≤ c.toNat ∧ c.toNat ≤ hi.toNat := by
  simpa [asciiBetween, Bool.and_eq_true, decide_eq_true_eq] using h

theorem asciiBetween_isDig {lo hi c : Char} (h : asciiBetween lo hi c = true)
    (hlo : 48 ≤ lo.toNat) (hhi : hi.toNat ≤ 57) : isDig c = true := by
  obtain ⟨h1, h2⟩ := asciiBetween_bounds h
  exact ascii_isDig (le_trans hlo h1) (le_trans h2 hhi)

theorem asciiBetween_digVal {lo hi c : Char} (h : asciiBetween lo hi c = true)
    (hlo : 48 ≤ lo.toNat) (hhi : hi.toNat ≤ 57) :
    lo.toNat - 48 ≤ digVal c ∧ digVal c ≤ hi.toNat - 48 := by
  obtain ⟨h1, h2⟩ := asciiBetween_bounds h
  have k1 := le_trans hlo h1
  have k2 := le_trans h2 hhi
  rw [ascii_digVal k1 k2]
  omega

theorem takeDigits_decomp (cs : List Char) :
    (takeDigits cs).1 ++ (takeDigits cs).2 = cs := by
  induction cs with
  | nil => rfl
  | cons c r ih =>
    simp only [takeDigits]
    split
    · simpa using ih
    · rfl

theorem takeDigits_all_dig (cs : List Char) :
    ∀ c ∈ (takeDigits cs).1, isDig c = true := by
  induction cs with
  | nil => intro c hc; simp [takeDigits] at hc
  | cons c0 r ih =>
    intro c hc
    by_cases h0 : isDig c0
    · simp only [takeDigits, if_pos h0] at hc
      rcases List.mem_cons.mp hc with rfl | hmem
      · exact h0
      · exact ih c hmem
    · simp [takeDigits, if_neg h0] at hc

theorem takeDigits_of_append {ds : List Char} (hds : ∀ c ∈ ds, isDig c = true)
    {c0 : Char} (hc0 : isDig c0 = false) (r : List Char) :
    takeDigits (ds ++ c0 :: r) = (ds, c0 :: r) := by
  induction ds with
  | nil => simp [takeDigits, hc0]
  | cons d ds2 ih =>
    have hd : isDig d = true := hds d (by simp)
    have ih2 := ih (fun c hc => hds c (by simp [hc]))
    rw [List.cons_append]
    simp only [takeDigits, if_pos hd, ih2]

theorem digitsVal_foldl_lt (ds : List Char) :
    ∀ a : Nat, (∀ c ∈ ds, isDig c = true) →
      List.foldl (fun x c => x * 10 + digVal c) a ds < (a + 1) * 10 ^ ds.length := by
  induction ds with
  | nil =>
    intro a _
    simp only [List.foldl_nil, List.length_nil, pow_zero, Nat.mul_one]
    exact Nat.lt_succ_self a
  | cons c cs ih =>
    intro a h
    have hc := isDig_digVal_le9 (h c (by simp))
    have h1 := ih (a * 10 + digVal c) (fun x hx => h x (by simp [hx]))
    have h2 : (a * 10 + digVal c + 1) * 10 ^ cs.length ≤ (a + 1) * 10 ^ (cs.length + 1) := by
      rw [pow_succ]
      calc (a * 10 + digVal c + 1) * 10 ^ cs.length
          ≤ ((a + 1) * 10) * 10 ^ cs.length := by
            apply Nat.mul_le_mul_right
            omega
        _ = (a + 1) * (10 ^ cs.length * 10) := by ring
    simp only [List.foldl_cons, List.length_cons]
    exact Nat.lt_of_lt_of_le h1 h2

theorem digitsVal_lt (ds : List Char) (h : ∀ c ∈ ds, isDig c = true) :
    digitsVal ds < 10 ^ ds.length := by
  simpa [digitsVal] using digitsVal_foldl_lt ds 0 h

theorem digitsVal_single (c : Char) : digitsVal [c] = digVal c := by
  simp [digitsVal]

theorem digitsVal_pair (c1 c2 : Char) :
    digitsVal [c1, c2] = 10 * digVal c1 + digVal c2 := by
  simp only [digitsVal, List.foldl_cons, List.foldl_nil]
  omega

theorem pField_sound {ok : List Char → Bool} {cs : List Char} {v : Nat} {r : List Char}
    (h : pField ok cs = some (v, r)) :
    ∃ ds : List Char, cs = ds ++ r ∧ (∀ c ∈ ds, isDig c = true) ∧ digitsVal ds = v
      ∧ ok ds = true := by
  unfold pField at h
  by_cases hok : ok (takeDigits cs).1 = true
  · rw [if_pos hok] at h
    have hv1 : digitsVal (takeDigits cs).1 = v := congrArg Prod.fst (Option.some.inj h)
    have hv2 : (takeDigits cs).2 = r := congrArg Prod.snd (Option.some.inj h)
    exact ⟨(takeDigits cs).1, by rw [← hv2, takeDigits_decomp], takeDigits_all_dig cs, hv1, hok⟩
  · rw [if_neg hok] at h
    simp at h

theorem pField_complete {ok : List Char → Bool} {ds : List Char}
    (hds : ∀ c ∈ ds, isDig c = true) {c0 : Char} (hc0 : isDig c0 = false)
    (r : List Char) (hok : ok ds = true) :
    pField ok (ds ++ c0 :: r) = some (digitsVal ds, c0 :: r) := by
  unfold pField
  rw [takeDigits_of_append hds hc0]
  exact if_pos hok

theorem okD_digits {r : List Char} (h : okD r = true) : ∀ c ∈ r, isDig c = true := by
  rcases r with _ | ⟨c1, _ | ⟨c2, _ | ⟨c3, t⟩⟩⟩
  · simp [okD] at h
  · intro x hx
    rcases List.mem_singleton.mp hx with rfl
    exact asciiBetween_isDig (by simpa [okD] using h) (by decide) (by decide)
  · simp only [okD, Bool.or_eq_true, Bool.and_eq_true, decide_eq_true_eq] at h
    intro x hx
    rcases List.mem_cons.mp hx with rfl | hx2
    · rcases h with (⟨hc1, _⟩ | ⟨hc1, _⟩) | ⟨hc1, _⟩
      · rw [hc1]; decide
      · rcases hc1 with rfl | rfl <;> decide
      · rw [hc1]; decide
    · rcases List.mem_singleton.mp hx2 with rfl
      rcases h with (⟨_, hb⟩ | ⟨_, hb⟩) | ⟨_, hb⟩
      · exact asciiBetween_isDig hb (by decide) (by decide)
      · exact hb
      · exact asciiBetween_isDig hb (by decide) (by decide)
  · simp [okD] at h

theorem okM_val {r : List Char} (h : okM r = true) :
    1 ≤ digitsVal r ∧ digitsVal r ≤ 12 := by
  rcases r with _ | ⟨c1, _ | ⟨c2, _ | ⟨c3, t⟩⟩⟩
  · simp [okM] at h
  · have hb := asciiBetween_digVal (by simpa [okM] using h) (by decide) (by decide)
    have e : ('1' : Char).toNat - 48 = 1 ∧ ('9' : Char).toNat - 48 = 9 := by decide
    rw [digitsVal_single]
    omega
  · simp only [okM, Bool.or_eq_true, Bool.and_eq_true, decide_eq_true_eq] at h
    rw [digitsVal_pair]
    rcases h with ⟨hc1, hb⟩ | ⟨hc1, hb⟩
    · have hv1 : digVal c1 = 1 := by rw [hc1]; decide
      have hb2 := asciiBetween_digVal hb (by decide) (by decide)
      have e : ('0' : Char).toNat - 48 = 0 ∧ ('2' : Char).toNat - 48 = 2 := by decide
      omega
    · have hv1 : digVal c1 = 0 := by rw [hc1]; decide
      have hb2 := asciiBetween_digVal hb (by decide) (by decide)
      have e : ('1' : Char).toNat - 48 = 1 ∧ ('9' : Char).toNat - 48 = 9 := by decide
      omega
  · simp [okM] at h

theorem okD_val {r : List Char} (h : okD r = true) :
    1 ≤ digitsVal r ∧ digitsVal r ≤ 31 := by
  rcases r with _ | ⟨c1, _ | ⟨c2, _ | ⟨c3, t⟩⟩⟩
  · simp [okD] at h
  · have hb := asciiBetween_digVal (by simpa [okD] using h) (by decide) (by decide)
    have e : ('1' : Char).toNat - 48 = 1 ∧ ('9' : Char).toNat - 48 = 9 := by decide
    rw [digitsVal_single]
    omega
  · simp only [okD, Bool.or_eq_true, Bool.and_eq_true, decide_eq_true_eq] at h
    rw [digitsVal_pair]
    rcases h with (⟨hc1, hb⟩ | ⟨hc1, hb⟩) | ⟨hc1, hb⟩
    · have hv1 : digVal c1 = 3 := by rw [hc1]; decide
      have hb2 := asciiBetween_digVal hb (by decide) (by decide)
      have e : ('0' : Char).toNat - 48 = 0 ∧ ('1' : Char).toNat - 48 = 1 := by decide
      omega
    · have hv1 : digVal c1 = 1 ∨ digVal c1 = 2 := by
        rcases hc1 with rfl | rfl
        · exact Or.inl (by decide)
        · exact Or.inr (by decide)
      have hb2 := isDig_digVal_le9 hb
      omega
    · have hv1 : digVal c1 = 0 := by rw [hc1]; decide
      have hb2 := asciiBetween_digVal hb (by decide) (by decide)
      have e : ('1' : Char).toNat - 48 = 1 ∧ ('9' : Char).toNat - 48 = 9 := by decide
      omega
  · simp [okD] at h

theorem okDayTok_val {d : List Char} (h : okDayTok d = true) :
    1 ≤ dayVal d ∧ dayVal d ≤ 31 := by
  rcases d with _ | ⟨c, t⟩
  · simp [okDayTok, okD] at h
  · simp only [okDayTok] at h
    by_cases hsp : c = ' '
    · rw [if_pos hsp] at h
      rcases t with _ | ⟨c1, _ | ⟨c2, t2⟩⟩
      · simp [okDaySpace] at h
      · have hb := asciiBetween_digVal (by simpa [okDaySpace] using h) (by decide) (by decide)
        have e : ('1' : Char).toNat - 48 = 1 ∧ ('9' : Char).toNat - 48 = 9 := by decide
        simp only [dayVal, if_pos hsp]
        rw [digitsVal_single]
        omega
      · simp [okDaySpace] at h
    · rw [if_neg hsp] at h
      have := okD_val h
      simpa [dayVal, if_neg hsp] using this

theorem okH_val {r : List Char} (h : okH r = true) (hd : ∀ c ∈ r, isDig c = true) :
    digitsVal r ≤ 23 := by
  rcases r with _ | ⟨c1, _ | ⟨c2, _ | ⟨c3, t⟩⟩⟩
  · simp [okH] at h
  · have := isDig_digVal_le9 (hd c1 (by simp))
    rw [digitsVal_single]
    omega
  · simp only [okH, Bool.or_eq_true, Bool.and_eq_true, decide_eq_true_eq] at h
    rw [digitsVal_pair]
    rcases h with ⟨hc1, hb⟩ | ⟨hc1, hb⟩
    · have hv1 : digVal c1 = 2 := by rw [hc1]; decide
      have hb2 := asciiBetween_digVal hb (by decide) (by decide)
      have e : ('0' : Char).toNat - 48 = 0 ∧ ('3' : Char).toNat - 48 = 3 := by decide
      omega
    · have hv1 : digVal c1 = 0 ∨ digVal c1 = 1 := by
        rcases hc1 with rfl | rfl
        · exact Or.inl (by decide)
        · exact Or.inr (by decide)
      have hb2 := isDig_digVal_le9 hb
      omega
  · simp [okH] at h

theorem okMS_val {r : List Char} (h : okMS r = true) (hd : ∀ c ∈ r, isDig c = true) :
    digitsVal r ≤ 59 := by
  rcases r with _ | ⟨c1, _ | ⟨c2, _ | ⟨c3, t⟩⟩⟩
  · simp [okMS] at h
  · have := isDig_digVal_le9 (hd c1 (by simp))
    rw [digitsVal_single]
    omega
  · simp only [okMS, Bool.and_eq_true] at h
    rw [digitsVal_pair]
    have hb1 := asciiBetween_digVal h.1 (by decide) (by decide)
    have e : ('0' : Char).toNat - 48 = 0 ∧ ('5' : Char).toNat - 48 = 5 := by decide
    have hb2 := isDig_digVal_le9 h.2
    omega
  · simp [okMS] at h

theorem pDay_sound {cs : List Char} {v : Nat} {r : List Char}
    (h : pDay cs = some (v, r)) :
    ∃ dtok : List Char, cs = dtok ++ r ∧ okDayTok dtok = true ∧ dayVal dtok = v := by
  rcases cs with _ | ⟨c, rest⟩
  · simp [pDay, pField, takeDigits, okD] at h
  · simp only [pDay] at h
    by_cases hsp : c = ' '
    · rw [if_pos hsp] at h
      by_cases hok : okDaySpace (takeDigits rest).1 = true
      · rw [if_pos hok] at h
        have hv1 : digitsVal (takeDigits rest).1 = v := congrArg Prod.fst (Option.some.inj h)
        have hv2 : (takeDigits rest).2 = r := congrArg Prod.snd (Option.some.inj h)
        refine ⟨' ' :: (takeDigits rest).1, ?_, ?_, ?_⟩
        · rw [hsp, List.cons_append]
          congr 1
          rw [← hv2, takeDigits_decomp]
        · simp [okDayTok, hok]
        · simp [dayVal, hv1]
      · rw [if_neg hok] at h
        simp at h
    · rw [if_neg hsp] at h
      obtain ⟨ds, hdecomp, hdig, hval, hok⟩ := pField_sound h
      rcases ds with _ | ⟨d0, dt2⟩
      · simp [okD] at hok
      · have h2 := hdecomp
        rw [List.cons_append] at h2
        injection h2 with hc _
        refine ⟨d0 :: dt2, hdecomp, ?_, ?_⟩
        · simp only [okDayTok]
          rw [if_neg (by rw [← hc]; exact hsp)]
          exact hok
        · simp only [dayVal]
          rw [if_neg (by rw [← hc]; exact hsp)]
          exact hval

theorem pDay_complete {dtok : List Char} (hok : okDayTok dtok = true)
    {c0 : Char} (hc0 : isDig c0 = false) (r : List Char) :
    pDay (dtok ++ c0 :: r) = some (dayVal dtok, c0 :: r) := by
  rcases dtok with _ | ⟨d0, dt2⟩
  · simp [okDayTok, okD] at hok
  · simp only [okDayTok] at hok
    by_cases hsp : d0 = ' '
    · rw [if_pos hsp] at hok
      rcases dt2 with _ | ⟨c, _ | ⟨x, t⟩⟩
      · simp [okDaySpace] at hok
      · have hdigc : isDig c = true :=
          asciiBetween_isDig (by simpa [okDaySpace] using hok) (by decide) (by decide)
        subst hsp
        have hds1 : ∀ x ∈ [c], isDig x = true := by
          intro x hx
          rcases List.mem_singleton.mp hx with rfl
          exact hdigc
        have ht : takeDigits (c :: c0 :: r) = ([c], c0 :: r) := by
          simpa using takeDigits_of_append hds1 hc0 r
        simp only [List.cons_append, List.nil_append, pDay, if_pos rfl, ht]
        rw [if_pos hok]
        simp [dayVal]
      · simp [okDaySpace] at hok
    · rw [if_neg hsp] at hok
      have hdig := okD_digits hok
      have hpf := pField_complete hdig hc0 r hok
      rw [List.cons_append] at hpf ⊢
      simp only [pDay]
      rw [if_neg hsp, hpf]
      simp [dayVal, hsp]

theorem pLit_sound {a b : Char} {cs r : List Char} (h : pLit a b cs = some r) :
    ∃ c, cs = c :: r ∧ (c = a ∨ c = b) := by
  cases cs with
  | nil => simp [pLit] at h
  | cons c cs2 =>
    simp only [pLit] at h
    by_cases hc : c = a ∨ c = b
    · rw [if_pos hc] at h
      exact ⟨c, by rw [Option.some.inj h], hc⟩
    · rw [if_neg hc] at h
      simp at h

theorem pLit_complete {a b c : Char} (h : c = a ∨ c = b) (r : List Char) :
    pLit a b (c :: r) = some r := if_pos h

theorem daysInMonth_le_31 (y m : Nat) : daysInMonth y m ≤ 31 := by
  unfold daysInMonth
  split
  · split <;> omega
  · split <;> omega

@[simp] theorem optionSomeBind {α β : Type} (a : α) (f : α → Option β) :
    (Option.some a).bind f = f a := rfl

/-- The exact set of strings `strptime` accepts, written out: a four-digit
year run (any Unicode decimal digits), then month, day, hour, minute and
second tokens matching their `_strptime` patterns exactly, separated by
"-", "-", "T" (either case), ":", ":" and terminated by "Z" (either
case); the day token may also be a space followed by a single ASCII
digit. The resulting values satisfy the `datetime` constructor's checks:
year at least 1, day valid for the month and year, second at most 59. -/
def acceptedShape (s : String) (dt : PyDateTime) : Prop :=
  ∃ (yds mds dtok hds nds sds : List Char) (tc zc : Char),
    s.toList = yds ++ '-' :: (mds ++ '-' :: (dtok ++ tc :: (hds ++ ':' ::
      (nds ++ ':' :: (sds ++ [zc])))))
    ∧ (∀ c ∈ yds, isDig c = true) ∧ (∀ c ∈ mds, isDig c = true)
    ∧ (∀ c ∈ hds, isDig c = true) ∧ (∀ c ∈ nds, isDig c = true)
    ∧ (∀ c ∈ sds, isDig c = true)
    ∧ okY yds = true ∧ okM mds = true ∧ okDayTok dtok = true
    ∧ okH hds = true ∧ okMS nds = true ∧ okS sds = true
    ∧ (tc = 'T' ∨ tc = 't') ∧ (zc = 'Z' ∨ zc = 'z')
    ∧ dt = ⟨digitsVal yds, digitsVal mds, dayVal dtok, digitsVal hds,
        digitsVal nds, digitsVal sds⟩
    ∧ 1 ≤ dt.year ∧ dt.year ≤ 9999
    ∧ 1 ≤ dt.month ∧ dt.month ≤ 12
    ∧ 1 ≤ dt.day ∧ dt.day ≤ daysInMonth dt.year dt.month
    ∧ dt.hour ≤ 23 ∧ dt.minute ≤ 59 ∧ dt.second ≤ 59

theorem strptime_sound {s : String} {dt : PyDateTime} (h : strptime s = some dt) :
    acceptedShape s dt := by
  simp only [strptime, Option.bind_eq_some] at h
  obtain ⟨⟨yv, yr⟩, hy, r2, hr2, ⟨mov, mor⟩, hmo, r4, hr4, ⟨dv, dr⟩, hd, r6, hr6,
    ⟨hv, hr⟩, hho, r8, hr8, ⟨miv, mir⟩, hmi, r10, hr10, ⟨sev, ser⟩, hse, r12, hr12, hfin⟩ := h
  rw [Option.ite_none_right_eq_some, Option.some.injEq] at hfin
  obtain ⟨⟨hnil, hy1, hday, hs59⟩, hdteq⟩ := hfin
  dsimp only at hr2 hr4 hr6 hr8 hr10 hr12 hdteq hy1 hday hs59
  obtain ⟨yds, hseq, hydig, hyval, hyok⟩ := pField_sound hy
  obtain ⟨c1, hc1eq, hc1⟩ := pLit_sound hr2
  obtain ⟨mds, hmeq, hmdig, hmval, hmok⟩ := pField_sound hmo
  obtain ⟨c2, hc2eq, hc2⟩ := pLit_sound hr4
  obtain ⟨dtok, hdeq, hdok, hdval⟩ := pDay_sound hd
  obtain ⟨tc, htceq, htc⟩ := pLit_sound hr6
  obtain ⟨hds, hheq, hhdig, hhval, hhok⟩ := pField_sound hho
  obtain ⟨c3, hc3eq, hc3⟩ := pLit_sound hr8
  obtain ⟨nds, hneq, hndig, hnval, hnok⟩ := pField_sound hmi
  obtain ⟨c4, hc4eq, hc4⟩ := pLit_sound hr10
  obtain ⟨sds, hsdeq, hsdig, hsval, hsok⟩ := pField_sound hse
  obtain ⟨zc, hzceq, hzc⟩ := pLit_sound hr12
  have hc1d : c1 = '-' := by rcases hc1 with h | h <;> exact h
  have hc2d : c2 = '-' := by rcases hc2 with h | h <;> exact h
  have hc3d : c3 = ':' := by rcases hc3 with h | h <;> exact h
  have hc4d : c4 = ':' := by rcases hc4 with h | h <;> exact h
  have hmv := okM_val hmok
  rw [hmval] at hmv
  have hdv := okDayTok_val hdok
  rw [hdval] at hdv
  have hhv := okH_val hhok hhdig
  rw [hhval] at hhv
  have hnv := okMS_val hnok hndig
  rw [hnval] at hnv
  have hylen : yds.length = 4 := by simpa [okY] using hyok
  have hy9999 : yv ≤ 9999 := by
    have := digitsVal_lt yds hydig
    rw [hylen, hyval] at this
    omega
  refine ⟨yds, mds, dtok, hds, nds, sds, tc, zc, ?_, hydig, hmdig, hhdig, hndig, hsdig,
    hyok, hmok, hdok, hhok, hnok, hsok, htc, hzc, ?_, ?_, ?_, ?_, ?_, ?_, ?_, ?_, ?_, ?_⟩
  · rw [hseq, hc1eq, hc1d, hmeq, hc2eq, hc2d, hdeq, htceq, hheq, hc3eq, hc3d, hneq,
      hc4eq, hc4d, hsdeq, hzceq, hnil]
  · rw [← hdteq, hyval, hmval, hdval, hhval, hnval, hsval]
  · rw [← hdteq]; exact hy1
  · rw [← hdteq]; exact hy9999
  · rw [← hdteq]; exact hmv.1
  · rw [← hdteq]; exact hmv.2
  · rw [← hdteq]; exact hdv.1
  · rw [← hdteq]; exact hday
  · rw [← hdteq]; exact hhv
  · rw [← hdteq]; exact hnv
  · rw [← hdteq]; exact hs59

theorem strptime_complete {s : String} {dt : PyDateTime} (h : acceptedShape s dt) :
    strptime s = some dt := by
  obtain ⟨yds, mds, dtok, hds, nds, sds, tc, zc, hshape, hydig, hmdig, hhdig, hndig, hsdig,
    hyok, hmok, hdok, hhok, hnok, hsok, htc, hzc, hdteq, hy1, _, _, _, _, hdmax, _, _, hs59⟩ := h
  subst hdteq
  have hdashF : isDig '-' = false := by decide
  have hcolonF : isDig ':' = false := by decide
  have htcF : isDig tc = false := by rcases htc with rfl | rfl <;> decide
  have hzcF : isDig zc = false := by rcases hzc with rfl | rfl <;> decide
  simp only [strptime, hshape]
  rw [pField_complete hydig hdashF _ hyok]
  simp only [optionSomeBind]
  rw [pLit_complete (Or.inl rfl)]
  simp only [optionSomeBind]
  rw [pField_complete hmdig hdashF _ hmok]
  simp only [optionSomeBind]
  rw [pLit_complete (Or.inl rfl)]
  simp only [optionSomeBind]
  rw [pDay_complete hdok htcF _]
  simp only [optionSomeBind]
  rw [pLit_complete htc]
  simp only [optionSomeBind]
  rw [pField_complete hhdig hcolonF _ hhok]
  simp only [optionSomeBind]
  rw [pLit_complete (Or.inl rfl)]
  simp only [optionSomeBind]
  rw [pField_complete hndig hcolonF _ hnok]
  simp only [optionSomeBind]
  rw [pLit_complete (Or.inl rfl)]
  simp only [optionSomeBind]
  rw [pField_complete hsdig hzcF _ hsok]
  simp only [optionSomeBind]
  rw [pLit_complete hzc]
  simp only [optionSomeBind]
  rw [if_pos ⟨by trivial, hy1, hdmax, hs59⟩]

/-- C6 counterexample: `format_timestamp` does not accept exactly the
strings matching YYYY-MM-DDTHH:MM:SSZ — an input with single-digit
(unpadded) fields succeeds, an input with an Arabic-Indic digit second
succeeds, a space-padded day succeeds, while an exactly-matching but
calendar-invalid input (February 30th) fails. -/
theorem C6_counterexample :
    format_timestamp "2021-4-1T2:3:4Z" = .ok "1st April 2021 - 02:03 AM UTC"
    ∧ format_timestamp "2021-04-01T00:00:٥Z" = .ok "1st April 2021 - 12:00 AM UTC"
    ∧ format_timestamp "2021-04- 5T00:00:00Z" = .ok "5th April 2021 - 12:00 AM UTC"
    ∧ format_timestamp "2021-02-30T00:00:00Z" = .error .valueError := by
  decide

/-- C6 as amended: `format_timestamp` succeeds exactly on the strings of
`acceptedShape`: a four-digit year of any Unicode decimal digits, then
month, day, hour, minute and second tokens matching `_strptime`'s regex
alternations exactly — the month from ASCII digits only (1 to 12, zero
padding optional), the day and the two-digit hour/minute/second forms
taking any Unicode digit in their second position when the first is an
in-range ASCII digit, a single-digit hour/minute/second any Unicode
digit, and the day optionally a space followed by one ASCII digit — with
case-insensitive T and Z separators, a calendar-valid day, year at least
1 and second at most 59; it fails with ValueError on everything else;
`strptime` is characterized accordingly. -/
theorem C6_parse_characterization (s : String) (dt : PyDateTime) :
    (strptime s = some dt ↔ acceptedShape s dt)
    ∧ ((∃ out, format_timestamp s = .ok out) ↔ ∃ dt2, acceptedShape s dt2)
    ∧ (format_timestamp s = .error .valueError ↔ ¬ ∃ dt2, acceptedShape s dt2) := by
  refine ⟨⟨strptime_sound, strptime_complete⟩, ?_, ?_⟩
  · constructor
    · rintro ⟨out, hout⟩
      rcases hp : strptime s with _ | dtv
      · rw [format_timestamp, hp] at hout
        exact absurd hout (by simp)
      · exact ⟨dtv, strptime_sound hp⟩
    · rintro ⟨dt2, hsh⟩
      refine ⟨toString dt2.day ++ ordSuffix dt2.day ++ " " ++ monthName dt2.month ++ " " ++
        toString dt2.year ++ " - " ++ pad2 (hour12 dt2.hour) ++ ":" ++ pad2 dt2.minute ++
        " " ++ ampm dt2.hour ++ " UTC", ?_⟩
      rw [format_timestamp, strptime_complete hsh]
  · constructor
    · rintro herr ⟨dt2, hsh⟩
      rw [format_timestamp, strptime_complete hsh] at herr
      exact absurd herr (by simp)
    · intro hno
      rcases hp : strptime s with _ | dtv
      · rw [format_timestamp, hp]
      · exact absurd ⟨dtv, strptime_sound hp⟩ hno

/-- C6 witness: the characterization applied at a concrete unpadded,
lowercase-separator input, and at one with an Arabic-Indic year, a
space-padded day and a Unicode digit inside a two-digit hour — all of
which the exact pattern would reject. -/
theorem C6_witness :
    strptime "2021-4-1t2:3:4z" = some ⟨2021, 4, 1, 2, 3, 4⟩
    ∧ strptime "٢٠٢١-04- 5T1٥:00:٥z" = some ⟨2021, 4, 5, 15, 0, 5⟩
    ∧ ∃ out, format_timestamp "2021-4-1t2:3:4z" = .ok out := by
  have hsh : acceptedShape "2021-4-1t2:3:4z" ⟨2021, 4, 1, 2, 3, 4⟩ :=
    (C6_parse_characterization "2021-4-1t2:3:4z" ⟨2021, 4, 1, 2, 3, 4⟩).1.mp (by decide)
  have hsh2 : acceptedShape "٢٠٢١-04- 5T1٥:00:٥z" ⟨2021, 4, 5, 15, 0, 5⟩ :=
    (C6_parse_characterization "٢٠٢١-04- 5T1٥:00:٥z" ⟨2021, 4, 5, 15, 0, 5⟩).1.mp (by decide)
  exact ⟨(C6_parse_characterization "2021-4-1t2:3:4z" ⟨2021, 4, 1, 2, 3, 4⟩).1.mpr hsh,
    (C6_parse_characterization "٢٠٢١-04- 5T1٥:00:٥z" ⟨2021, 4, 5, 15, 0, 5⟩).1.mpr hsh2,
    (C6_parse_characterization "2021-4-1t2:3:4z" ⟨2021, 4, 1, 2, 3, 4⟩).2.1.mpr
      ⟨⟨2021, 4, 1, 2, 3, 4⟩, hsh⟩⟩
